import Mathlib

set_option autoImplicit false

/-
  A shallow embedding of the core of michilu/nutsdb (src/db.go): the
  recovery/index-build algorithm, the per-structure index builders, the merge
  loop, the open-time index-mode compatibility check, and the managed
  transaction facade.  Go machine integers are modelled as Nat/Int (no
  overflow is reachable in the modelled paths), Go errors as explicit result
  types, and a Go nil-pointer dereference as an explicit crash outcome.
  The external ds packages (set, zset, list) and the B+ tree are out-of-scope
  collaborators per the spec and are modelled at their documented interfaces
  as association lists.
-/

namespace NutsDB

/-- Flag constant from the iota block of db.go: the data delete flag. -/
def DataDeleteFlag : Nat := 0

/-- Flag constant: the data set flag. -/
def DataSetFlag : Nat := 1

/-- Flag constant: the data LPush flag. -/
def DataLPushFlag : Nat := 2

/-- Flag constant: the data RPush flag. -/
def DataRPushFlag : Nat := 3

/-- Flag constant: the data LRem flag. -/
def DataLRemFlag : Nat := 4

/-- Flag constant: the data LPop flag. -/
def DataLPopFlag : Nat := 5

/-- Flag constant: the data RPop flag. -/
def DataRPopFlag : Nat := 6

/-- Flag constant: the data LSet flag. -/
def DataLSetFlag : Nat := 7

/-- Flag constant: the data LTrim flag. -/
def DataLTrimFlag : Nat := 8

/-- Flag constant: the data ZAdd flag. -/
def DataZAddFlag : Nat := 9

/-- Flag constant: the data ZRem flag. -/
def DataZRemFlag : Nat := 10

/-- Flag constant: the data ZRemRangeByRank flag. -/
def DataZRemRangeByRankFlag : Nat := 11

/-- Flag constant: the data ZPopMax flag. -/
def DataZPopMaxFlag : Nat := 12

/-- Flag constant: the data ZPopMin flag. -/
def DataZPopMinFlag : Nat := 13

/-- Transaction status constant: uncommitted. -/
def UnCommitted : Nat := 0

/-- Transaction status constant: committed. -/
def Committed : Nat := 1

/-- Data structure tag: set. -/
def DataStructureSet : Nat := 0

/-- Data structure tag: sorted set. -/
def DataStructureSortedSet : Nat := 1

/-- Data structure tag: B+ tree (ordered map). -/
def DataStructureBPTree : Nat := 2

/-- Data structure tag: list. -/
def DataStructureList : Nat := 3

/-- The three entry index modes of the Options type (options.go, outside
src/; the spec lists exactly these three names). -/
inductive EntryIdxMode where
  | HintKeyValAndRAMIdxMode
  | HintKeyAndRAMIdxMode
  | HintBPTSparseIdxMode
deriving DecidableEq, Repr

/-- Go errors relevant to the modelled paths: the two named sentinel errors
of db.go plus dynamically built error messages. -/
inductive GoError where
  | ErrEntryIdxModeOpt
  | ErrFn
  | errMsg (s : String)
deriving DecidableEq, Repr

/-- Outcome of a Go function that can return an error or crash with a
nil-pointer dereference (the crash is modelled explicitly). -/
inductive BuildRes (α : Type) where
  | ok (a : α)
  | err (e : GoError)
  | panic
deriving DecidableEq, Repr

/-- MetaData of an entry (entry.go, fields used by db.go): flag, data
structure, status, txID, ttl, timestamp, bucket. -/
structure MetaData where
  Flag : Nat
  ds : Nat
  status : Nat
  txID : Nat
  TTL : Nat
  timestamp : Nat
  bucket : String
deriving DecidableEq, Repr

/-- Entry: one log record (key, value, metadata); byte slices are modelled
as strings. -/
structure Entry where
  Key : String
  Value : String
  Meta : MetaData
deriving DecidableEq, Repr

/-- Hint: a pointer to an entry (key, file id, data position, metadata). -/
structure Hint where
  key : String
  fileID : Int
  dataPos : Nat
  meta : MetaData
deriving DecidableEq, Repr

/-- Record: a Hint paired with an optional resident Entry; E is none in
pointer-only index modes. -/
structure Record where
  H : Hint
  E : Option Entry
deriving DecidableEq, Repr

/-- Modelled from the spec: DataEntryHeaderSize lives in entry.go, not in
src/; the spec says size() is the header plus the three payload lengths.
The exact constant does not affect any claim. -/
def DataEntryHeaderSize : Nat := 42

/-- Size of a serialized entry: header plus bucket, key and value lengths. -/
def entrySize (e : Entry) : Nat :=
  DataEntryHeaderSize + e.Meta.bucket.length + e.Key.length + e.Value.length

/-- Modelled from the spec: SeparatorForZSetKey is defined outside src/; the
spec says it is a configured separator character that cannot appear in user
keys. -/
def SeparatorForZSetKey : String := "|"

/-- Modelled from the spec: SeparatorForListKey is defined outside src/; the
spec says it is a configured separator character that cannot appear in user
keys. -/
def SeparatorForListKey : String := "|"

/-- Split a character list on a separator character; like Go strings.Split,
adjacent separators and edge separators produce empty parts. -/
def splitOnChar (sep : Char) : List Char → List (List Char)
  | [] => [[]]
  | c :: rest =>
      let r := splitOnChar sep rest
      if c == sep then [] :: r
      else
        match r with
        | [] => [[c]]
        | g :: gs => (c :: g) :: gs

/-- Go strings.Split for the one-character separators this code base uses
(both configured separators are single characters); any other separator
shape is out of the modelled paths. -/
def stringsSplit (s sep : String) : List String :=
  match sep.data with
  | [c] => (splitOnChar c s.data).map String.mk
  | _ => [s]

/-- Association-list lookup (first binding wins), used to model Go maps and
the external ordered-map interface. -/
def lookupA {κ β : Type} [BEq κ] : List (κ × β) → κ → Option β
  | [], _ => none
  | (k, v) :: rest, key => if k == key then some v else lookupA rest key

/-- Association-list upsert: replace the binding in place or append it. -/
def insertA {κ β : Type} [BEq κ] : List (κ × β) → κ → β → List (κ × β)
  | [], key, v => [(key, v)]
  | (k, v0) :: rest, key, v =>
      if k == key then (key, v) :: rest else (k, v0) :: insertA rest key v

/-- Integer parsing as strconv2.StrToInt is used in db.go: the error is
always discarded, and Go strconv returns 0 alongside a syntax error. -/
def strToInt (s : String) : Int := (s.toInt?).getD 0

/-- Digit-string to Nat, none on the empty string or a non-digit. -/
def natOfDigits (cs : List Char) : Option Nat :=
  if cs.isEmpty then none
  else cs.foldlM
    (fun acc c => if c.isDigit then some (acc * 10 + (c.toNat - 48)) else none) 0

/-- Unsigned decimal literal to a rational, none when malformed. -/
def decimalToRat (cs : List Char) : Option Rat :=
  match cs.splitOn '.' with
  | [w] => (natOfDigits w).map (fun n => (n : Rat))
  | [w, f] =>
      match natOfDigits w, natOfDigits f with
      | some wn, some fn => some ((wn : Rat) + (fn : Rat) / ((10 : Rat) ^ f.length))
      | _, _ => none
  | _ => none

/-- Float parsing at the interface of strconv2.StrToFloat64 (an external
utility wrapping Go strconv.ParseFloat, which yields the value 0 together
with a syntax error on malformed input): none models the error case.  Only
the plain decimal subset is modelled; exponents are not exercised. -/
def strToFloat64Opt (s : String) : Option Rat :=
  match s.data with
  | '-' :: rest => (decimalToRat rest).map Neg.neg
  | '+' :: rest => decimalToRat rest
  | l => decimalToRat l

/-- The value db.go actually uses after ignoring the parse error: 0 on
failure, exactly as Go strconv.ParseFloat returns. -/
def strToFloat64 (s : String) : Rat := (strToFloat64Opt s).getD 0

/-- One bucket of the ordered-map (B+ tree) index: key to Record, upsert
semantics per the spec's ordered-map interface. -/
abbrev BPTreeRep := List (String × Record)

/-- One bucket of the set index: key to list of member values. -/
abbrev SetRep := List (String × List String)

/-- One bucket of the sorted-set index: members (key, score, value). -/
abbrev ZSetRep := List (String × Rat × String)

/-- One bucket of the list index: key to deque of values. -/
abbrev ListRep := List (String × List String)

/-- The in-memory indexes of the DB struct that recovery populates. -/
structure IdxState where
  BPTreeIdx : List (String × BPTreeRep)
  ActiveBPTreeIdx : BPTreeRep
  SetIdx : List (String × SetRep)
  SortedSetIdx : List (String × ZSetRep)
  ListIdx : List (String × ListRep)
  KeyCount : Nat
deriving DecidableEq, Repr

/-- The empty index state created by Open. -/
def emptyIdx : IdxState :=
  { BPTreeIdx := [], ActiveBPTreeIdx := [], SetIdx := [], SortedSetIdx := [],
    ListIdx := [], KeyCount := 0 }

/-- Go: if the bucket key is absent, SetIdx[bucket] = set.New(). -/
def ensureSetBucket (st : IdxState) (bucket : String) : IdxState :=
  match lookupA st.SetIdx bucket with
  | some _ => st
  | none => { st with SetIdx := insertA st.SetIdx bucket [] }

/-- Go: if the bucket key is absent, SortedSetIdx[bucket] = zset.New(). -/
def ensureZSetBucket (st : IdxState) (bucket : String) : IdxState :=
  match lookupA st.SortedSetIdx bucket with
  | some _ => st
  | none => { st with SortedSetIdx := insertA st.SortedSetIdx bucket [] }

/-- Go: if the bucket key is absent, ListIdx[bucket] = list.New(). -/
def ensureListBucket (st : IdxState) (bucket : String) : IdxState :=
  match lookupA st.ListIdx bucket with
  | some _ => st
  | none => { st with ListIdx := insertA st.ListIdx bucket [] }

/-- External set ADT: SAdd adds a member value under a key. -/
def sAdd (s : SetRep) (key val : String) : SetRep :=
  let cur := (lookupA s key).getD []
  if cur.contains val then s else insertA s key (cur ++ [val])

/-- External set ADT: SRem removes a member value under a key. -/
def sRem (s : SetRep) (key val : String) : SetRep :=
  insertA s key (((lookupA s key).getD []).filter (fun v => v != val))

/-- External set ADT: SIsMember. -/
def sIsMember (s : SetRep) (key val : String) : Bool :=
  ((lookupA s key).getD []).contains val

/-- External zset ADT: Put upserts a member by key. -/
def zsetPut (z : ZSetRep) (key : String) (score : Rat) (val : String) : ZSetRep :=
  match z with
  | [] => [(key, score, val)]
  | (k, sc, v) :: rest =>
      if k == key then (key, score, val) :: rest
      else (k, sc, v) :: zsetPut rest key score val

/-- External zset ADT: Remove deletes the member with the given key. -/
def zsetRemove (z : ZSetRep) (key : String) : ZSetRep :=
  z.filter (fun m => m.1 != key)

/-- External zset ADT: GetByKey. -/
def zsetGetByKey (z : ZSetRep) (key : String) : Option (String × Rat × String) :=
  z.find? (fun m => m.1 == key)

/-- Member with the maximal score, none on the empty sorted set. -/
def zsetFindMax : ZSetRep → Option (String × Rat × String)
  | [] => none
  | m :: rest =>
      match zsetFindMax rest with
      | none => some m
      | some m2 => if m2.2.1 > m.2.1 then some m2 else some m

/-- Member with the minimal score, none on the empty sorted set. -/
def zsetFindMin : ZSetRep → Option (String × Rat × String)
  | [] => none
  | m :: rest =>
      match zsetFindMin rest with
      | none => some m
      | some m2 => if m2.2.1 < m.2.1 then some m2 else some m

/-- External zset ADT: PopMax removes the maximal-score member. -/
def zsetPopMax (z : ZSetRep) : ZSetRep :=
  match zsetFindMax z with
  | none => z
  | some m => z.erase m

/-- External zset ADT: PopMin removes the minimal-score member. -/
def zsetPopMin (z : ZSetRep) : ZSetRep :=
  match zsetFindMin z with
  | none => z
  | some m => z.erase m

/-- Insert a member into a score-ascending list (stable). -/
def zsetInsertSorted (m : String × Rat × String) : ZSetRep → ZSetRep
  | [] => [m]
  | x :: rest =>
      if x.2.1 ≤ m.2.1 then x :: zsetInsertSorted m rest else m :: x :: rest

/-- Members sorted ascending by score. -/
def zsetSortByScore (z : ZSetRep) : ZSetRep :=
  z.foldr zsetInsertSorted []

/-- External zset ADT: GetByRankRange with the remove flag, as db.go uses it
for DataZRemRangeByRankFlag: remove the members whose 1-based rank in score
order falls in the (possibly negative, end-relative) range. -/
def zsetRemRangeByRank (z : ZSetRep) (s e : Int) : ZSetRep :=
  let n : Int := z.length
  let s1 := if s < 0 then n + s + 1 else s
  let e1 := if e < 0 then n + e + 1 else e
  let ranked := (zsetSortByScore z).enum
  let doomed := (ranked.filter
    (fun p => decide (s1 ≤ (p.1 : Int) + 1) && decide ((p.1 : Int) + 1 ≤ e1))).map
    (fun p => p.2.1)
  z.filter (fun m => !(doomed.contains m.1))

/-- External list ADT: LPush prepends a value under a key. -/
def lPush (l : ListRep) (key val : String) : ListRep :=
  insertA l key (val :: (lookupA l key).getD [])

/-- External list ADT: RPush appends a value under a key. -/
def rPush (l : ListRep) (key val : String) : ListRep :=
  insertA l key ((lookupA l key).getD [] ++ [val])

/-- External list ADT: LPop removes the head, erring on a missing or empty
list. -/
def lPop (l : ListRep) (key : String) : Except String ListRep :=
  match lookupA l key with
  | none => Except.error ("the list not found")
  | some [] => Except.error ("the list is empty")
  | some (_ :: rest) => Except.ok (insertA l key rest)

/-- External list ADT: RPop removes the last element, erring on a missing or
empty list. -/
def rPop (l : ListRep) (key : String) : Except String ListRep :=
  match lookupA l key with
  | none => Except.error ("the list not found")
  | some [] => Except.error ("the list is empty")
  | some items => Except.ok (insertA l key items.dropLast)

/-- Modelled from the spec: the external ds/list LRem operation (the spec
says "remove count copies (count parsed from value)"); a missing list errs,
a positive count drops from the head, a negative one from the tail. -/
def lRem (l : ListRep) (key : String) (count : Int) : Except String ListRep :=
  match lookupA l key with
  | none => Except.error ("the list not found")
  | some items =>
      let k := (count.natAbs).min items.length
      if count ≥ 0 then Except.ok (insertA l key (items.drop k))
      else Except.ok (insertA l key (items.take (items.length - k)))

/-- External list ADT: LSet writes the element at an index, erring on a
missing list or an out-of-range index. -/
def lSet (l : ListRep) (key : String) (i : Int) (val : String) : Except String ListRep :=
  match lookupA l key with
  | none => Except.error ("the list not found")
  | some items =>
      if 0 ≤ i ∧ i < (items.length : Int) then
        Except.ok (insertA l key (items.set i.toNat val))
      else Except.error ("index out of range")

/-- External list ADT: Ltrim keeps the inclusive range, erring on a missing
list; negative indexes count from the end. -/
def lTrim (l : ListRep) (key : String) (s e : Int) : Except String ListRep :=
  match lookupA l key with
  | none => Except.error ("the list not found")
  | some items =>
      let n : Int := items.length
      let s1 := if s < 0 then n + s else s
      let e1 := if e < 0 then n + e else e
      if 0 ≤ s1 ∧ s1 ≤ e1 ∧ s1 < n then
        Except.ok (insertA l key ((items.take (e1.toNat + 1)).drop s1.toNat))
      else Except.error ("start or end error")

/-- buildSetIdx of db.go: ensure the bucket, reject a nil resident entry
with ErrEntryIdxModeOpt, then apply SAdd for the set flag and SRem for the
delete flag. -/
def buildSetIdx (st : IdxState) (bucket : String) (r : Record) : BuildRes IdxState :=
  let st1 := ensureSetBucket st bucket
  match r.E with
  | none => BuildRes.err GoError.ErrEntryIdxModeOpt
  | some e =>
      let st2 :=
        if r.H.meta.Flag == DataSetFlag then
          { st1 with SetIdx :=
              insertA st1.SetIdx bucket (sAdd ((lookupA st1.SetIdx bucket).getD []) e.Key e.Value) }
        else st1
      let st3 :=
        if r.H.meta.Flag == DataDeleteFlag then
          { st2 with SetIdx :=
              insertA st2.SetIdx bucket (sRem ((lookupA st2.SetIdx bucket).getD []) e.Key e.Value) }
        else st2
      BuildRes.ok st3

/-- The sorted-set members of a bucket (empty when the bucket is absent). -/
def zsetMembers (st : IdxState) (bucket : String) : ZSetRep :=
  (lookupA st.SortedSetIdx bucket).getD []

/-- Apply zset Put to one bucket of the sorted-set index. -/
def zsetPutIdx (st : IdxState) (bucket key : String) (score : Rat) (val : String) : IdxState :=
  { st with SortedSetIdx :=
      insertA st.SortedSetIdx bucket (zsetPut (zsetMembers st bucket) key score val) }

/-- Apply an arbitrary zset operation to one bucket of the sorted-set
index. -/
def zsetUpdIdx (st : IdxState) (bucket : String) (f : ZSetRep → ZSetRep) : IdxState :=
  { st with SortedSetIdx := insertA st.SortedSetIdx bucket (f (zsetMembers st bucket)) }

/-- buildSortedSetIdx of db.go.  The Go code evaluates string(r.E.Key)
before any nil check in the DataZAddFlag, DataZRemFlag and
DataZRemRangeByRankFlag branches, so a nil resident entry is a nil-pointer
dereference (BuildRes.panic); the nil check the source places after the
score parse inside the zadd branch is unreachable.  A zadd key that does not
split into exactly two parts is silently skipped, and a score that fails to
parse is used as 0 (the parse error is discarded). -/
def buildSortedSetIdx (st : IdxState) (bucket : String) (r : Record) : BuildRes IdxState :=
  let st1 := ensureZSetBucket st bucket
  if r.H.meta.Flag == DataZAddFlag then
    match r.E with
    | none => BuildRes.panic
    | some e =>
        let keyAndScore := stringsSplit e.Key SeparatorForZSetKey
        if keyAndScore.length == 2 then
          let key := keyAndScore.headD ("")
          let score := strToFloat64 (keyAndScore.getD 1 (""))
          BuildRes.ok (zsetPutIdx st1 bucket key score e.Value)
        else BuildRes.ok st1
  else if r.H.meta.Flag == DataZRemFlag then
    match r.E with
    | none => BuildRes.panic
    | some e => BuildRes.ok (zsetUpdIdx st1 bucket (fun z => zsetRemove z e.Key))
  else if r.H.meta.Flag == DataZRemRangeByRankFlag then
    match r.E with
    | none => BuildRes.panic
    | some e =>
        BuildRes.ok (zsetUpdIdx st1 bucket
          (fun z => zsetRemRangeByRank z (strToInt e.Key) (strToInt e.Value)))
  else if r.H.meta.Flag == DataZPopMaxFlag then
    BuildRes.ok (zsetUpdIdx st1 bucket zsetPopMax)
  else if r.H.meta.Flag == DataZPopMinFlag then
    BuildRes.ok (zsetUpdIdx st1 bucket zsetPopMin)
  else BuildRes.ok st1

/-- Error wrapper ErrWhenBuildListIdx of db.go. -/
def ErrWhenBuildListIdx (msg : String) : GoError :=
  GoError.errMsg ("when build listIdx LRem err: " ++ msg)

/-- buildListIdx of db.go: ensure the bucket, reject a nil resident entry
with ErrEntryIdxModeOpt, then dispatch the list operation by flag.  For
LSet and LTrim the Go code indexes keyAndIndex[1] without a length check, so
a key without the separator is an index-out-of-range panic. -/
def buildListIdx (st : IdxState) (bucket : String) (r : Record) : BuildRes IdxState :=
  let st1 := ensureListBucket st bucket
  match r.E with
  | none => BuildRes.err GoError.ErrEntryIdxModeOpt
  | some e =>
      let lb := (lookupA st1.ListIdx bucket).getD []
      let put : ListRep → IdxState := fun lb2 => { st1 with ListIdx := insertA st1.ListIdx bucket lb2 }
      if r.H.meta.Flag == DataLPushFlag then
        BuildRes.ok (put (lPush lb e.Key e.Value))
      else if r.H.meta.Flag == DataRPushFlag then
        BuildRes.ok (put (rPush lb e.Key e.Value))
      else if r.H.meta.Flag == DataLRemFlag then
        match lRem lb e.Key (strToInt e.Value) with
        | Except.ok lb2 => BuildRes.ok (put lb2)
        | Except.error msg => BuildRes.err (ErrWhenBuildListIdx msg)
      else if r.H.meta.Flag == DataLPopFlag then
        match lPop lb e.Key with
        | Except.ok lb2 => BuildRes.ok (put lb2)
        | Except.error msg => BuildRes.err (ErrWhenBuildListIdx msg)
      else if r.H.meta.Flag == DataRPopFlag then
        match rPop lb e.Key with
        | Except.ok lb2 => BuildRes.ok (put lb2)
        | Except.error msg => BuildRes.err (ErrWhenBuildListIdx msg)
      else if r.H.meta.Flag == DataLSetFlag then
        match stringsSplit e.Key SeparatorForListKey with
        | k :: istr :: _ =>
            match lSet lb k (strToInt istr) e.Value with
            | Except.ok lb2 => BuildRes.ok (put lb2)
            | Except.error msg => BuildRes.err (ErrWhenBuildListIdx msg)
        | _ => BuildRes.panic
      else if r.H.meta.Flag == DataLTrimFlag then
        match stringsSplit e.Key SeparatorForListKey with
        | k :: sstr :: _ =>
            match lTrim lb k (strToInt sstr) (strToInt e.Value) with
            | Except.ok lb2 => BuildRes.ok (put lb2)
            | Except.error msg => BuildRes.err (ErrWhenBuildListIdx msg)
        | _ => BuildRes.panic
      else BuildRes.ok st1

/-- buildBPTreeIdx of db.go: create the per-bucket tree when absent and
upsert the record by key (the external ordered map's Insert). -/
def buildBPTreeIdx (st : IdxState) (bucket : String) (r : Record) : BuildRes IdxState :=
  let t := (lookupA st.BPTreeIdx bucket).getD []
  BuildRes.ok { st with BPTreeIdx := insertA st.BPTreeIdx bucket (insertA t r.H.key r) }

/-- buildActiveBPTreeIdx of db.go: upsert under the concatenated
bucket-then-key composite key. -/
def buildActiveBPTreeIdx (st : IdxState) (r : Record) : BuildRes IdxState :=
  let newKey := r.H.meta.bucket ++ r.H.key
  BuildRes.ok { st with ActiveBPTreeIdx := insertA st.ActiveBPTreeIdx newKey r }

/-- buildOtherIdxes of db.go: dispatch a record to the set, sorted-set or
list builder by its data-structure tag (the tags are distinct, so the Go
sequence of ifs with early error returns is an if chain). -/
def buildOtherIdxes (st : IdxState) (bucket : String) (r : Record) : BuildRes IdxState :=
  if r.H.meta.ds == DataStructureSet then buildSetIdx st bucket r
  else if r.H.meta.ds == DataStructureSortedSet then buildSortedSetIdx st bucket r
  else if r.H.meta.ds == DataStructureList then buildListIdx st bucket r
  else BuildRes.ok st

/-- The in-place status overwrite of buildHintIdx: r.H.meta.status =
Committed. -/
def setStatusCommitted (r : Record) : Record :=
  { r with H := { r.H with meta := { r.H.meta with status := Committed } } }

/-- The per-record body of the apply loop of buildHintIdx, reached only for
records whose txID is committed: ordered-map records get their status
overwritten and go to the active index (sparse mode) or the per-bucket
ordered-map index, every record is offered to buildOtherIdxes, and KeyCount
is incremented. -/
def applyCommittedRecord (mode : EntryIdxMode) (st : IdxState) (r : Record) : BuildRes IdxState :=
  let bucket := r.H.meta.bucket
  let step :=
    if r.H.meta.ds == DataStructureBPTree then
      let r2 := setStatusCommitted r
      if mode == EntryIdxMode.HintBPTSparseIdxMode then buildActiveBPTreeIdx st r2
      else buildBPTreeIdx st bucket r2
    else BuildRes.ok st
  match step with
  | BuildRes.ok st2 =>
      match buildOtherIdxes st2 bucket r with
      | BuildRes.ok st3 => BuildRes.ok { st3 with KeyCount := st3.KeyCount + 1 }
      | BuildRes.err e => BuildRes.err e
      | BuildRes.panic => BuildRes.panic
  | BuildRes.err e => BuildRes.err e
  | BuildRes.panic => BuildRes.panic

/-- The apply loop of buildHintIdx over the unconfirmed records: a record is
dispatched only when its txID is a member of the committed-tx set, anything
else is passed over without touching any index. -/
def buildRecordsLoop (mode : EntryIdxMode) (committed : List Nat) (st : IdxState) :
    List Record → BuildRes IdxState
  | [] => BuildRes.ok st
  | r :: rs =>
      if committed.contains r.H.meta.txID then
        match applyCommittedRecord mode st r with
        | BuildRes.ok st2 => buildRecordsLoop mode committed st2 rs
        | BuildRes.err e => BuildRes.err e
        | BuildRes.panic => BuildRes.panic
      else buildRecordsLoop mode committed st rs

/-- Result of one DataFile.ReadAt call, as the recovery and merge loops
consume it: a decoded entry, a (nil, nil) clean end, an io.EOF, or another
read error.  A segment file is modelled as the stream of results its
successive reads produce; reading past the modelled stream is io.EOF. -/
inductive ReadCell where
  | entry (e : Entry)
  | nilEntry
  | eof
  | errAt (msg : String)
deriving DecidableEq, Repr

/-- Modelled from the spec: IsExpired lives in entry.go, not in src/.  The
spec says a ttl of 0 means persistent and that (ttl, timestamp) against the
current time decide expiry; the current time is passed explicitly. -/
def IsExpired (ttl timestamp now : Nat) : Bool :=
  if ttl = 0 then false else decide (timestamp + ttl ≤ now)

/-- isFilterEntry of db.go: true exactly for the destructive opcodes
(delete, pops, removes, trim) and for expired (ttl, timestamp) pairs. -/
def isFilterEntry (now : Nat) (entry : Entry) : Bool :=
  entry.Meta.Flag == DataDeleteFlag || entry.Meta.Flag == DataRPopFlag ||
  entry.Meta.Flag == DataLPopFlag || entry.Meta.Flag == DataLRemFlag ||
  entry.Meta.Flag == DataLTrimFlag || entry.Meta.Flag == DataZRemFlag ||
  entry.Meta.Flag == DataZRemRangeByRankFlag || entry.Meta.Flag == DataZPopMaxFlag ||
  entry.Meta.Flag == DataZPopMinFlag || IsExpired entry.Meta.TTL entry.Meta.timestamp now

/-- getPendingMergeEntries of db.go: consult the current in-memory index for
reachability and append the entry when it is still live.  A bucket absent
from a Go map yields a nil structure pointer there; the lookups are modelled
as empty structures (the spec treats the structures as external ADTs). -/
def getPendingMergeEntries (st : IdxState) (entry : Entry) (pend : List Entry) : List Entry :=
  if entry.Meta.ds == DataStructureBPTree then
    match lookupA ((lookupA st.BPTreeIdx entry.Meta.bucket).getD []) entry.Key with
    | some r => if r.H.meta.Flag == DataSetFlag then pend ++ [entry] else pend
    | none => pend
  else if entry.Meta.ds == DataStructureSet then
    if sIsMember ((lookupA st.SetIdx entry.Meta.bucket).getD []) entry.Key entry.Value then
      pend ++ [entry]
    else pend
  else if entry.Meta.ds == DataStructureSortedSet then
    let keyAndScore := stringsSplit entry.Key SeparatorForZSetKey
    if keyAndScore.length == 2 then
      match zsetGetByKey (zsetMembers st entry.Meta.bucket) (keyAndScore.headD ("")) with
      | some _ => pend ++ [entry]
      | none => pend
    else pend
  else if entry.Meta.ds == DataStructureList then
    let items := (lookupA ((lookupA st.ListIdx entry.Meta.bucket).getD []) entry.Key).getD []
    if (entry.Meta.Flag == DataRPushFlag || entry.Meta.Flag == DataLPushFlag)
        && items.contains entry.Value then
      pend ++ [entry]
    else pend
  else pend

/-- The per-segment read loop of Merge: skip filtered entries, collect the
still-reachable ones, stop at a nil entry, at io.EOF or once the offset
reaches SegmentSize, and surface any other read error. -/
def mergeScan (st : IdxState) (segSize now : Nat) :
    List ReadCell → Nat → List Entry → Except String (List Entry)
  | [], _, pend => Except.ok pend
  | cell :: rest, off, pend =>
      match cell with
      | ReadCell.nilEntry => Except.ok pend
      | ReadCell.eof => Except.ok pend
      | ReadCell.errAt msg =>
          Except.error ("when merge operation build hintIndex readAt err: " ++ msg)
      | ReadCell.entry e =>
          if isFilterEntry now e then
            let off2 := off + entrySize e
            if segSize ≤ off2 then Except.ok pend
            else mergeScan st segSize now rest off2 pend
          else
            let pend2 := getPendingMergeEntries st e pend
            let off2 := off + entrySize e
            if segSize ≤ off2 then Except.ok pend2
            else mergeScan st segSize now rest off2 pend2

/-- The mutable DB state Merge touches: the data segments on disk (id with
the stream of reads the file produces), MaxFileID, and the isMerging flag. -/
structure MergeState where
  segments : List (Int × List ReadCell)
  MaxFileID : Int
  isMerging : Bool
deriving DecidableEq, Repr

/-- Ascending sort of segment ids, as sort.Ints produces. -/
def sortInts (l : List Int) : List Int :=
  l.insertionSort (fun a b => a ≤ b)

/-- getMaxFileIDAndFileIDs of db.go over the modelled directory.  The
directory holds exactly the data segments keyed by id, so the name
round-trip of the source (suffix filter, TrimSuffix, StrToInt) is elided:
ids are collected directly, sorted ascending, and the maximum is the last. -/
def getMaxFileIDAndFileIDs (segs : List (Int × List ReadCell)) : Int × List Int :=
  if segs.isEmpty then (0, [])
  else
    let dataFileIds := sortInts (segs.map Prod.fst)
    ((dataFileIds.getLast?).getD 0, dataFileIds)

/-- reWriteData of db.go, on the success path: a fresh write transaction
re-appends the pending entries into a brand-new active segment with id
MaxFileID + 1 (the transactional layer is the external callback contract;
its error paths, which reset isMerging, are not modelled). -/
def reWriteData (s : MergeState) (pend : List Entry) : MergeState :=
  { s with
      segments := s.segments ++ [(s.MaxFileID + 1, pend.map ReadCell.entry)],
      MaxFileID := s.MaxFileID + 1 }

/-- Remove the segment with the given id from the modelled directory. -/
def removeSeg (segs : List (Int × List ReadCell)) (fid : Int) : List (Int × List ReadCell) :=
  segs.filter (fun s => s.1 != fid)

/-- The main loop of Merge over the pending file ids: scan the segment,
rewrite the survivors into a new active segment, then delete the source.  A
read error returns with the state as it stands (isMerging is not reset on
that path). -/
def mergeLoop (idx : IdxState) (segSize now : Nat) :
    List Int → MergeState → MergeState × Option GoError
  | [], s => (s, none)
  | fid :: rest, s =>
      let cells := (lookupA s.segments fid).getD []
      match mergeScan idx segSize now cells 0 [] with
      | Except.error msg => (s, some (GoError.errMsg msg))
      | Except.ok pend =>
          let s2 := reWriteData s pend
          let s3 := { s2 with segments := removeSeg s2.segments fid }
          mergeLoop idx segSize now rest s3

/-- Merge of db.go: reject sparse mode outright, set isMerging, collect the
file ids on disk, reject fewer than two (resetting isMerging), then run the
merge loop over every collected id. -/
def Merge (mode : EntryIdxMode) (segSize now : Nat) (idx : IdxState) (s : MergeState) :
    MergeState × Option GoError :=
  if mode == EntryIdxMode.HintBPTSparseIdxMode then
    (s, some (GoError.errMsg ("not support mode `HintBPTSparseIdxMode`")))
  else
    let s1 := { s with isMerging := true }
    let pendingMergeFIds := (getMaxFileIDAndFileIDs s1.segments).2
    if pendingMergeFIds.length < 2 then
      ({ s1 with isMerging := false },
        some (GoError.errMsg ("the number of files waiting to be merged is at least 2")))
    else
      mergeLoop idx segSize now pendingMergeFIds s1

/-- The accumulator of parseDataFiles: the flat unconfirmed-record list, the
committed-tx set, the persistent committed-tx ordered index, and the
sparse-mode bucket-and-key position side map. -/
structure ParseAcc where
  unconfirmedRecords : List Record
  committedTxIds : List Nat
  activeCommittedTxIdsIdx : List Nat
  BPTreeKeyEntryPosMap : List (String × Nat)
deriving DecidableEq, Repr

/-- The empty parse accumulator. -/
def emptyParseAcc : ParseAcc :=
  { unconfirmedRecords := [], committedTxIds := [], activeCommittedTxIdsIdx := [],
    BPTreeKeyEntryPosMap := [] }

/-- The per-segment read loop of parseDataFiles: populate the resident entry
only in keys-and-values mode, promote committed txIDs, always emit the
unconfirmed record, record the sparse-mode position, and stop at a nil
entry or io.EOF; any other read error stops cleanly at or past SegmentSize
(torn tail) and is surfaced below it. -/
def parseScan (mode : EntryIdxMode) (segSize : Nat) (fID : Int) :
    List ReadCell → Nat → ParseAcc → Except String ParseAcc
  | [], _, acc => Except.ok acc
  | cell :: rest, off, acc =>
      match cell with
      | ReadCell.nilEntry => Except.ok acc
      | ReadCell.eof => Except.ok acc
      | ReadCell.errAt msg =>
          if segSize ≤ off then Except.ok acc
          else Except.error ("when build hintIndex readAt err: " ++ msg)
      | ReadCell.entry entry =>
          let e : Option Entry :=
            if mode == EntryIdxMode.HintKeyValAndRAMIdxMode then
              some { Key := entry.Key, Value := entry.Value, Meta := entry.Meta }
            else none
          let acc1 :=
            if entry.Meta.status == Committed then
              { acc with
                  committedTxIds := acc.committedTxIds ++ [entry.Meta.txID],
                  activeCommittedTxIdsIdx := acc.activeCommittedTxIdsIdx ++ [entry.Meta.txID] }
            else acc
          let acc2 :=
            { acc1 with unconfirmedRecords := acc1.unconfirmedRecords ++
                [{ H := { key := entry.Key, fileID := fID, dataPos := off, meta := entry.Meta },
                   E := e }] }
          let acc3 :=
            if mode == EntryIdxMode.HintBPTSparseIdxMode then
              { acc2 with BPTreeKeyEntryPosMap := (insertA acc2.BPTreeKeyEntryPosMap
                  (entry.Meta.bucket ++ entry.Key) off) }
            else acc2
          parseScan mode segSize fID rest (off + entrySize entry) acc3

/-- The outer loop of parseDataFiles over the segments in ascending order. -/
def parseFilesLoop (mode : EntryIdxMode) (segSize : Nat) :
    List (Int × List ReadCell) → ParseAcc → Except String ParseAcc
  | [], acc => Except.ok acc
  | (fid, cells) :: rest, acc =>
      match parseScan mode segSize fid cells 0 acc with
      | Except.ok acc2 => parseFilesLoop mode segSize rest acc2
      | Except.error e => Except.error e

/-- parseDataFiles of db.go: in sparse mode only the last segment is
parsed. -/
def parseDataFiles (mode : EntryIdxMode) (segSize : Nat)
    (files : List (Int × List ReadCell)) : Except String ParseAcc :=
  let files2 :=
    if mode == EntryIdxMode.HintBPTSparseIdxMode then files.drop (files.length - 1)
    else files
  parseFilesLoop mode segSize files2 emptyParseAcc

/-- buildHintIdx of db.go: parse every segment, then apply the records whose
txID the committed-tx set contains (the sparse-mode on-disk root-index load
is file IO outside the modelled paths). -/
def buildHintIdx (mode : EntryIdxMode) (segSize : Nat)
    (files : List (Int × List ReadCell)) : BuildRes IdxState :=
  match parseDataFiles mode segSize files with
  | Except.error msg => BuildRes.err (GoError.errMsg msg)
  | Except.ok acc =>
      if acc.unconfirmedRecords.isEmpty then BuildRes.ok emptyIdx
      else buildRecordsLoop mode acc.committedTxIds emptyIdx acc.unconfirmedRecords

/-- Modelled from the spec: DataSuffix is defined outside src/; the spec's
directory layout names the segment files id-dot-dat. -/
def DataSuffix : String := ".dat"

/-- The bpt auxiliary directory name constant of db.go. -/
def bptDir : String := "bpt"

/-- path.Ext of path.Base for a directory entry name (no slashes): the
suffix beginning at the final dot, empty when there is no dot. -/
def pathExt (s : String) : String :=
  if s.data.contains '.' then
    String.mk ('.' :: (s.data.reverse.takeWhile (fun c => c != '.')).reverse)
  else ""

/-- The directory scan of checkEntryIdxMode with its early break: once a
data file is seen while the bpt flag is already set, the loop stops. -/
def checkScan : List String → Bool → Bool → Bool × Bool
  | [], hasData, hasBpt => (hasData, hasBpt)
  | f :: fs, hasData, hasBpt =>
      if pathExt f == DataSuffix then
        if hasBpt then (true, hasBpt)
        else checkScan fs true (if f == bptDir then true else hasBpt)
      else checkScan fs hasData (if f == bptDir then true else hasBpt)

/-- checkEntryIdxMode of db.go over the directory listing: data files next
to a bpt directory reject every non-sparse mode, and data files without a
bpt directory reject the sparse mode. -/
def checkEntryIdxMode (mode : EntryIdxMode) (files : List String) : Option String :=
  let flags := checkScan files false false
  if mode != EntryIdxMode.HintBPTSparseIdxMode && flags.1 && flags.2 then
    some ("not support HintBPTSparseIdxMode switch to the other EntryIdxMode")
  else if mode == EntryIdxMode.HintBPTSparseIdxMode && !flags.2 && flags.1 then
    some ("not support the other EntryIdxMode switch to HintBPTSparseIdxMode")
  else none

/-- The observable steps of a managed transaction, in call order. -/
inductive TxStep where
  | begunTx
  | fnCall
  | rollback
  | commit
deriving DecidableEq, Repr

/-- The outcomes of the external transactional collaborators for one managed
call: what Begin, the user callback, Commit and Rollback would each return
(none is success).  The callback itself is external; its semantics here is
the error it returns. -/
structure TxEnv where
  beginErr : Option GoError
  fnErr : Option GoError
  commitErr : Option GoError
  rollbackErr : Option GoError
deriving DecidableEq, Repr

/-- managed of db.go: begin, run the callback, roll back on a callback error
(returning the rollback error when the rollback itself fails, else the
original error), commit otherwise, and on a commit failure roll back and
return likewise.  The returned trace records which collaborators were
invoked, in order. -/
def managed (env : TxEnv) : Option GoError × List TxStep :=
  match env.beginErr with
  | some e => (some e, [TxStep.begunTx])
  | none =>
      match env.fnErr with
      | some e =>
          match env.rollbackErr with
          | some re => (some re, [TxStep.begunTx, TxStep.fnCall, TxStep.rollback])
          | none => (some e, [TxStep.begunTx, TxStep.fnCall, TxStep.rollback])
      | none =>
          match env.commitErr with
          | some ce =>
              match env.rollbackErr with
              | some re => (some re, [TxStep.begunTx, TxStep.fnCall, TxStep.commit, TxStep.rollback])
              | none => (some ce, [TxStep.begunTx, TxStep.fnCall, TxStep.commit, TxStep.rollback])
          | none => (none, [TxStep.begunTx, TxStep.fnCall, TxStep.commit])

/-- Update of db.go: a nil callback is rejected with ErrFn before any
transaction begins; otherwise the managed writable path runs. -/
def Update (fn : Option TxEnv) : Option GoError × List TxStep :=
  match fn with
  | none => (some GoError.ErrFn, [])
  | some env => managed env

/-- View of db.go: a nil callback is rejected with ErrFn before any
transaction begins; otherwise the managed read-only path runs. -/
def View (fn : Option TxEnv) : Option GoError × List TxStep :=
  match fn with
  | none => (some GoError.ErrFn, [])
  | some env => managed env

/-- The destructive opcode list exactly as the spec sentence behind C4 words
it: delete, list-pop in either direction, list-rem, list-trim,
sorted-set-rem, sorted-set-rem-range-by-rank, sorted-set-pop-max and -min. -/
def specDestructiveFlags : List Nat :=
  [DataDeleteFlag, DataLPopFlag, DataRPopFlag, DataLRemFlag, DataLTrimFlag,
   DataZRemFlag, DataZRemRangeByRankFlag, DataZPopMaxFlag, DataZPopMinFlag]

/-- Metadata for the concrete demonstration records: committed, persistent,
bucket b. -/
def demoMeta (flag ds : Nat) : MetaData :=
  { Flag := flag, ds := ds, status := Committed, txID := 1, TTL := 0,
    timestamp := 0, bucket := "b" }

/-- A sorted-set zadd record with no resident entry (pointer-only mode). -/
def zaddNilRecord : Record :=
  { H := { key := "k1", fileID := 0, dataPos := 0,
           meta := demoMeta DataZAddFlag DataStructureSortedSet },
    E := none }

/-- A set record with no resident entry. -/
def setNilRecord : Record :=
  { H := { key := "k1", fileID := 0, dataPos := 0,
           meta := demoMeta DataSetFlag DataStructureSet },
    E := none }

/-- A list push record with no resident entry. -/
def listNilRecord : Record :=
  { H := { key := "k1", fileID := 0, dataPos := 0,
           meta := demoMeta DataLPushFlag DataStructureList },
    E := none }

/-- A sorted-set pop-max record with no resident entry. -/
def zpopNilRecord : Record :=
  { H := { key := "k1", fileID := 0, dataPos := 0,
           meta := demoMeta DataZPopMaxFlag DataStructureSortedSet },
    E := none }

/-- An index whose sorted-set bucket b holds one member. -/
def oneMemberIdx : IdxState :=
  { emptyIdx with SortedSetIdx := [("b", [("m", (1 : Rat), "v")])] }

/-- A zadd entry whose key splits into three parts on the separator. -/
def zadd3PartsEntry : Entry :=
  { Key := "a|b|c", Value := "v", Meta := demoMeta DataZAddFlag DataStructureSortedSet }

/-- The record carrying zadd3PartsEntry. -/
def zadd3PartsRecord : Record :=
  { H := { key := "a|b|c", fileID := 0, dataPos := 0, meta := zadd3PartsEntry.Meta },
    E := some zadd3PartsEntry }

/-- A zadd entry whose score part does not parse as a float. -/
def zaddBadScoreEntry : Entry :=
  { Key := "a|xyz", Value := "v", Meta := demoMeta DataZAddFlag DataStructureSortedSet }

/-- The record carrying zaddBadScoreEntry. -/
def zaddBadScoreRecord : Record :=
  { H := { key := "a|xyz", fileID := 0, dataPos := 0, meta := zaddBadScoreEntry.Meta },
    E := some zaddBadScoreEntry }

/-- A delete-flag entry (filtered by merge). -/
def mergeDemoEntry : Entry :=
  { Key := "k", Value := "v", Meta := demoMeta DataDeleteFlag DataStructureBPTree }

/-- Two sealed segments 0 and 1, each holding one delete record; 1 is the
highest-numbered (active) segment when Merge starts. -/
def mergeDemoState : MergeState :=
  { segments := [(0, [ReadCell.entry mergeDemoEntry]), (1, [ReadCell.entry mergeDemoEntry])],
    MaxFileID := 1, isMerging := false }

/-- Two segments whose first read errors below SegmentSize. -/
def mergeReadErrState : MergeState :=
  { segments := [(0, [ReadCell.errAt "boom"]), (1, [ReadCell.entry mergeDemoEntry])],
    MaxFileID := 1, isMerging := false }

/-- A second two-segment state for exercising a fully successful merge. -/
def mergeOkState : MergeState :=
  { segments := [(3, [ReadCell.entry mergeDemoEntry]), (4, [ReadCell.nilEntry])],
    MaxFileID := 4, isMerging := false }

/-- A set entry that merge keeps: non-destructive flag and still a live
member of the set index. -/
def keepDemoEntry : Entry :=
  { Key := "k", Value := "v", Meta := demoMeta DataSetFlag DataStructureSet }

/-- The index in which keepDemoEntry is reachable. -/
def keepDemoIdx : IdxState :=
  { emptyIdx with SetIdx := [("b", [("k", ["v"])])] }

/-- A directory with exactly the two sealed segments 0 and 1. -/
def pendingIdsDemoSegs : List (Int × List ReadCell) :=
  [(0, []), (1, [])]

/-- A directory state with no data files at all. -/
def noFilesMergeState : MergeState :=
  { segments := [], MaxFileID := 0, isMerging := false }

/-- A callback environment whose user function fails while rollback
succeeds. -/
def fnFailEnv : TxEnv :=
  { beginErr := none, fnErr := some (GoError.errMsg "boom"), commitErr := none,
    rollbackErr := none }

/- ------------------------------------------------------------------ -/
/- Helper lemmas. -/
/- ------------------------------------------------------------------ -/

/-- Lookup after upsert: the upserted key reads back the new value and every
other key is unchanged. -/
theorem lookupA_insertA {β : Type} (l : List (String × β)) (k k2 : String) (v : β) :
    lookupA (insertA l k v) k2 = if k = k2 then some v else lookupA l k2 := by
  induction l with
  | nil =>
      simp only [insertA, lookupA]
      by_cases h : k = k2
      · simp [h]
      · simp [h, beq_eq_false_iff_ne.mpr h]
  | cons p rest ih =>
      obtain ⟨k1, v1⟩ := p
      simp only [insertA]
      by_cases h1 : k1 = k
      · subst h1
        simp only [beq_self_eq_true, if_true, lookupA]
        by_cases h2 : k1 = k2
        · simp [h2]
        · have hb : (k1 == k2) = false := beq_eq_false_iff_ne.mpr h2
          simp [hb, h2, lookupA]
      · have hb : (k1 == k) = false := beq_eq_false_iff_ne.mpr h1
        simp only [hb, Bool.false_eq_true, if_false, lookupA]
        by_cases h2 : k1 = k2
        · subst h2
          have : ¬ k = k1 := fun h => h1 h.symm
          simp [this]
        · have hb2 : (k1 == k2) = false := beq_eq_false_iff_ne.mpr h2
          simp [hb2, ih]

/-- Ensuring a sorted-set bucket changes no bucket's member list. -/
theorem zsetMembers_ensure (st : IdxState) (bucket b : String) :
    zsetMembers (ensureZSetBucket st bucket) b = zsetMembers st b := by
  unfold ensureZSetBucket zsetMembers
  cases hl : lookupA st.SortedSetIdx bucket with
  | some z => rfl
  | none =>
      simp only [lookupA_insertA]
      by_cases h : bucket = b
      · subst h
        simp [hl]
      · simp [h]

/- ------------------------------------------------------------------ -/
/- Claim theorems. -/
/- ------------------------------------------------------------------ -/

/-- C1: the apply loop of buildHintIdx dispatches a record to an index
builder only when its txID is a member of the committed-tx set; a record
with any other txID contributes nothing to the ordered-map, set, sorted-set
or list indexes, so running the loop equals running it on only the
committed-filtered records. -/
theorem buildRecordsLoop_skips_uncommitted (mode : EntryIdxMode) (committed : List Nat)
    (st : IdxState) (rs : List Record) :
    buildRecordsLoop mode committed st rs
      = buildRecordsLoop mode committed st
          (rs.filter (fun r => committed.contains r.H.meta.txID)) := by
  induction rs generalizing st with
  | nil => rfl
  | cons r rs ih =>
      simp only [buildRecordsLoop, List.filter_cons]
      cases h : committed.contains r.H.meta.txID with
      | false =>
          simp only [h, Bool.false_eq_true, if_false]
          exact ih st
      | true =>
          simp only [h, if_true]
          simp only [buildRecordsLoop, h, if_true]
          cases happ : applyCommittedRecord mode st r with
          | ok st2 => exact ih st2
          | err e => rfl
          | panic => rfl

/-- C3 is a code bug: buildSortedSetIdx dereferences the resident entry
before its nil check, so a pointer-only (E = nil) zadd record crashes with a
nil-pointer dereference instead of returning ErrEntryIdxModeOpt, and a
pointer-only zpop-max record silently mutates the index; the set and list
builders do reject a nil resident entry with ErrEntryIdxModeOpt as claimed.
This theorem evaluates the builders at those failing inputs. -/
theorem buildSortedSetIdx_nil_entry_crashes :
    buildSortedSetIdx emptyIdx ("b") zaddNilRecord = BuildRes.panic
    ∧ buildSetIdx emptyIdx ("b") setNilRecord = BuildRes.err GoError.ErrEntryIdxModeOpt
    ∧ buildListIdx emptyIdx ("b") listNilRecord = BuildRes.err GoError.ErrEntryIdxModeOpt
    ∧ buildSortedSetIdx oneMemberIdx ("b") zpopNilRecord
        = BuildRes.ok { oneMemberIdx with SortedSetIdx := [("b", [])] } := by
  refine ⟨rfl, rfl, rfl, ?_⟩
  decide

/-- C10: a committed zadd record whose key does not split into exactly two
parts on SeparatorForZSetKey is silently ignored (the builder returns nil
and no bucket's member list changes), and a score substring that fails to
parse is silently used as 0 in the Put instead of surfacing a codec
error. -/
theorem buildSortedSetIdx_zadd_lenient :
    (∀ (st : IdxState) (bucket : String) (r : Record) (e : Entry),
        r.E = some e → r.H.meta.Flag = DataZAddFlag →
        (stringsSplit e.Key SeparatorForZSetKey).length ≠ 2 →
        buildSortedSetIdx st bucket r = BuildRes.ok (ensureZSetBucket st bucket)
          ∧ ∀ b, zsetMembers (ensureZSetBucket st bucket) b = zsetMembers st b)
    ∧ (∀ (st : IdxState) (bucket : String) (r : Record) (e : Entry) (k s : String),
        r.E = some e → r.H.meta.Flag = DataZAddFlag →
        stringsSplit e.Key SeparatorForZSetKey = [k, s] → strToFloat64Opt s = none →
        buildSortedSetIdx st bucket r
          = BuildRes.ok (zsetPutIdx (ensureZSetBucket st bucket) bucket k 0 e.Value)) := by
  constructor
  · intro st bucket r e hE hFlag hLen
    have hb : (((stringsSplit e.Key SeparatorForZSetKey).length == 2) : Bool) = false :=
      beq_eq_false_iff_ne.mpr hLen
    refine ⟨?_, fun b => zsetMembers_ensure st bucket b⟩
    simp only [buildSortedSetIdx, hE, hFlag, beq_self_eq_true, if_true, hb,
      Bool.false_eq_true, if_false]
  · intro st bucket r e k s hE hFlag hSplit hParse
    simp only [buildSortedSetIdx, hE, hFlag, beq_self_eq_true, if_true, hSplit]
    have hlen : (([k, s].length == 2) : Bool) = true := by rfl
    have hscore : strToFloat64 (([k, s]).getD 1 ("")) = 0 := by
      show (strToFloat64Opt (([k, s]).getD 1 (""))).getD 0 = 0
      rw [show (([k, s]).getD 1 ("")) = s from rfl, hParse]
      rfl
    simp only [hlen, if_true, hscore]
    rfl

/-- Witness for C10 at concrete inputs: a three-part key is ignored and a
non-numeric score is stored as 0. -/
theorem buildSortedSetIdx_zadd_lenient_witness :
    buildSortedSetIdx emptyIdx ("b") zadd3PartsRecord
        = BuildRes.ok (ensureZSetBucket emptyIdx ("b"))
    ∧ buildSortedSetIdx emptyIdx ("b") zaddBadScoreRecord
        = BuildRes.ok (zsetPutIdx (ensureZSetBucket emptyIdx ("b")) ("b") ("a") 0 ("v")) := by
  constructor
  · exact (buildSortedSetIdx_zadd_lenient.1 emptyIdx ("b") zadd3PartsRecord zadd3PartsEntry
      rfl rfl (by decide)).1
  · exact buildSortedSetIdx_zadd_lenient.2 emptyIdx ("b") zaddBadScoreRecord zaddBadScoreEntry
      ("a") ("xyz") rfl rfl (by decide) (by decide)

/-- Helper: every element of a list sorted ascending is at most its last
element. -/
theorem sorted_le_getLast (l : List Int) (hs : l.Sorted (fun a b => a ≤ b)) :
    ∀ x ∈ l, ∀ h : l ≠ [], x ≤ l.getLast h := by
  induction l with
  | nil => intro x hx; cases hx
  | cons a t ih =>
      intro x hx h
      rw [List.sorted_cons] at hs
      cases t with
      | nil =>
          have hxa : x = a := by simpa using hx
          simp [List.getLast, hxa]
      | cons b t2 =>
          rw [List.getLast_cons (by simp : b :: t2 ≠ [])]
          rcases List.mem_cons.mp hx with rfl | hx2
          · exact hs.1 _ (List.getLast_mem (by simp))
          · exact ih hs.2 x hx2 (by simp)

/-- Helper: the merge loop never writes the isMerging flag. -/
theorem mergeLoop_isMerging (idx : IdxState) (segSize now : Nat) (fids : List Int) :
    ∀ s : MergeState, ((mergeLoop idx segSize now fids s).1).isMerging = s.isMerging := by
  induction fids with
  | nil => intro s; rfl
  | cons fid rest ih =>
      intro s
      simp only [mergeLoop]
      cases h : mergeScan idx segSize now ((lookupA s.segments fid).getD []) 0 [] with
      | error msg => rfl
      | ok pend => exact ih _

/-- Helper: the pending-merge id list has one id per data file on disk. -/
theorem length_getMaxFileIDAndFileIDs (segs : List (Int × List ReadCell)) :
    (getMaxFileIDAndFileIDs segs).2.length = segs.length := by
  unfold getMaxFileIDAndFileIDs
  cases hie : segs.isEmpty with
  | true => simp [List.isEmpty_iff.mp hie]
  | false =>
      rw [if_neg (by simp [hie])]
      show (sortInts (segs.map Prod.fst)).length = segs.length
      have hlen := (List.perm_insertionSort (fun a b : Int => a ≤ b)
        (segs.map Prod.fst)).length_eq
      simp [sortInts, hlen]

/-- C2 counterexample: on a directory holding segments 0 and 1, where 1 is
the highest-numbered (active) data file when Merge starts, Merge succeeds
and afterwards segment 1 has been read, rewritten and deleted: only the ids
2 and 3 created during the merge survive.  This falsifies the claim that the
active segment is neither read-and-rewritten nor deleted by the merge
loop. -/
theorem Merge_deletes_active_segment :
    getMaxFileIDAndFileIDs mergeDemoState.segments = (1, [0, 1])
    ∧ (Merge EntryIdxMode.HintKeyValAndRAMIdxMode 1000 0 emptyIdx mergeDemoState).2 = none
    ∧ ((Merge EntryIdxMode.HintKeyValAndRAMIdxMode 1000 0 emptyIdx mergeDemoState).1).segments.map
        Prod.fst = [2, 3] := by
  refine ⟨by decide, by decide, by decide⟩

/-- C2 amended: the pending-merge id list that the Merge loop reads,
rewrites and deletes contains every data file present when Merge starts —
including the active (maximal) id — and nothing above the initial maximum,
so only segments created during the merge itself (which get ids greater than
the initial MaxFileID) are untouched. -/
theorem Merge_pendingIds_include_active (segs : List (Int × List ReadCell)) (h : segs ≠ []) :
    (∀ fid ∈ (getMaxFileIDAndFileIDs segs).2, fid ≤ (getMaxFileIDAndFileIDs segs).1)
    ∧ (getMaxFileIDAndFileIDs segs).1 ∈ (getMaxFileIDAndFileIDs segs).2 := by
  have hie : segs.isEmpty = false := by
    cases hk : segs.isEmpty
    · rfl
    · exact absurd (List.isEmpty_iff.mp hk) h
  have hperm : List.Perm (sortInts (segs.map Prod.fst)) (segs.map Prod.fst) :=
    List.perm_insertionSort _ _
  have hL : sortInts (segs.map Prod.fst) ≠ [] := by
    intro hnil
    have h2 : segs.map Prod.fst = [] := (hnil ▸ hperm).symm.eq_nil
    exact h (List.map_eq_nil_iff.mp h2)
  have hsorted : (sortInts (segs.map Prod.fst)).Sorted (fun a b : Int => a ≤ b) :=
    List.sorted_insertionSort _ _
  have hgl : getMaxFileIDAndFileIDs segs
      = ((sortInts (segs.map Prod.fst)).getLast hL, sortInts (segs.map Prod.fst)) := by
    unfold getMaxFileIDAndFileIDs
    rw [if_neg (by simp [hie])]
    show ((sortInts (segs.map Prod.fst)).getLast?.getD 0, sortInts (segs.map Prod.fst)) = _
    rw [List.getLast?_eq_getLast _ hL]
    rfl
  rw [hgl]
  exact ⟨fun fid hf => sorted_le_getLast _ hsorted fid hf hL, List.getLast_mem hL⟩

/-- Witness for the amended C2 on the concrete directory with segments 0 and
1: every pending id is at most 1 (instantiated at the member 1) and the
maximal id 1 is itself pending. -/
theorem Merge_pendingIds_include_active_witness :
    (1 : Int) ≤ (getMaxFileIDAndFileIDs pendingIdsDemoSegs).1
    ∧ (getMaxFileIDAndFileIDs pendingIdsDemoSegs).1
        ∈ (getMaxFileIDAndFileIDs pendingIdsDemoSegs).2 :=
  ⟨(Merge_pendingIds_include_active pendingIdsDemoSegs (by decide)).1 1 (by decide),
   (Merge_pendingIds_include_active pendingIdsDemoSegs (by decide)).2⟩

/-- C6: Merge invoked under sparse mode or with fewer than two data files on
disk returns an error and leaves the on-disk segment set unchanged. -/
theorem Merge_precondition_failure (mode : EntryIdxMode) (segSize now : Nat)
    (idx : IdxState) (s : MergeState)
    (h : mode = EntryIdxMode.HintBPTSparseIdxMode ∨ s.segments.length < 2) :
    ((Merge mode segSize now idx s).2).isSome = true
    ∧ ((Merge mode segSize now idx s).1).segments = s.segments := by
  cases hm : (mode == EntryIdxMode.HintBPTSparseIdxMode) with
  | true => simp [Merge, hm]
  | false =>
      have hmode : mode ≠ EntryIdxMode.HintBPTSparseIdxMode := by
        intro he
        rw [he] at hm
        simp at hm
      have hlt : s.segments.length < 2 := h.resolve_left hmode
      have hfids : (getMaxFileIDAndFileIDs s.segments).2.length < 2 := by
        rw [length_getMaxFileIDAndFileIDs]
        exact hlt
      simp [Merge, hm, hfids]

/-- Witness for C6: sparse mode on an empty directory errs and leaves the
segment set as it was. -/
theorem Merge_precondition_failure_witness :
    ((Merge EntryIdxMode.HintBPTSparseIdxMode 1000 0 emptyIdx noFilesMergeState).2).isSome = true
    ∧ ((Merge EntryIdxMode.HintBPTSparseIdxMode 1000 0 emptyIdx noFilesMergeState).1).segments
        = noFilesMergeState.segments :=
  Merge_precondition_failure _ 1000 0 emptyIdx noFilesMergeState (Or.inl rfl)

/-- C9: the isMerging flag set on entry is never reset on Merge's success
path, so a merge that returns nil leaves the DB marked as merging; and the
read-error path also leaves the flag set (while the too-few-files
precondition path, exercised in the C6 theorem, does reset it). -/
theorem Merge_success_keeps_isMerging :
    (∀ (mode : EntryIdxMode) (segSize now : Nat) (idx : IdxState) (s : MergeState),
        (Merge mode segSize now idx s).2 = none →
        ((Merge mode segSize now idx s).1).isMerging = true)
    ∧ (Merge EntryIdxMode.HintKeyValAndRAMIdxMode 1000 0 emptyIdx mergeReadErrState).2.isSome
        = true
    ∧ ((Merge EntryIdxMode.HintKeyValAndRAMIdxMode 1000 0 emptyIdx mergeReadErrState).1).isMerging
        = true := by
  refine ⟨?_, by decide, by decide⟩
  intro mode segSize now idx s hnone
  cases hm : (mode == EntryIdxMode.HintBPTSparseIdxMode) with
  | true => simp [Merge, hm] at hnone
  | false =>
      simp only [Merge, hm, Bool.false_eq_true, if_false] at hnone ⊢
      by_cases hlen : ((getMaxFileIDAndFileIDs s.segments).2.length < 2)
      · simp [hlen] at hnone
      · simp only [if_neg hlen] at hnone ⊢
        rw [mergeLoop_isMerging]

/-- Witness for C9 at a concrete successful merge: afterwards the flag is
still true. -/
theorem Merge_success_keeps_isMerging_witness :
    ((Merge EntryIdxMode.HintKeyValAndRAMIdxMode 1000 0 emptyIdx mergeOkState).1).isMerging
        = true :=
  Merge_success_keeps_isMerging.1 EntryIdxMode.HintKeyValAndRAMIdxMode 1000 0 emptyIdx
    mergeOkState (by decide)

/-- Helper: getPendingMergeEntries either keeps the pending list unchanged
or appends exactly the scrutinized entry. -/
theorem getPendingMergeEntries_cases (st : IdxState) (entry : Entry) (pend : List Entry) :
    getPendingMergeEntries st entry pend = pend
    ∨ getPendingMergeEntries st entry pend = pend ++ [entry] := by
  unfold getPendingMergeEntries
  dsimp only
  repeat' split
  all_goals first | (left; rfl) | (right; rfl)

/-- Helper: every entry the merge scan collects passed the filter, provided
the incoming pending list did. -/
theorem mergeScan_keeps_unfiltered (idx : IdxState) (segSize now : Nat) :
    ∀ (cells : List ReadCell) (off : Nat) (pend0 pend : List Entry),
      mergeScan idx segSize now cells off pend0 = Except.ok pend →
      (∀ e ∈ pend0, isFilterEntry now e = false) →
      ∀ e ∈ pend, isFilterEntry now e = false := by
  intro cells
  induction cells with
  | nil =>
      intro off pend0 pend hok h0
      injection hok with h
      subst h
      exact h0
  | cons cell rest ih =>
      intro off pend0 pend hok h0
      cases cell with
      | nilEntry =>
          injection hok with h
          subst h
          exact h0
      | eof =>
          injection hok with h
          subst h
          exact h0
      | errAt msg => cases hok
      | entry e =>
          simp only [mergeScan] at hok
          by_cases hf : isFilterEntry now e = true
          · rw [if_pos hf] at hok
            by_cases hso : segSize ≤ off + entrySize e
            · rw [if_pos hso] at hok
              injection hok with h
              subst h
              exact h0
            · rw [if_neg hso] at hok
              exact ih _ _ _ hok h0
          · have hf2 : isFilterEntry now e = false := by
              cases hx : isFilterEntry now e
              · rfl
              · exact absurd hx hf
            rw [if_neg hf] at hok
            have h2 : ∀ x ∈ getPendingMergeEntries idx e pend0, isFilterEntry now x = false := by
              intro x hx
              rcases getPendingMergeEntries_cases idx e pend0 with hc | hc
              · rw [hc] at hx
                exact h0 x hx
              · rw [hc] at hx
                rcases List.mem_append.mp hx with hx1 | hx2
                · exact h0 x hx1
                · have hxe : x = e := by simpa using hx2
                  rw [hxe]
                  exact hf2
            by_cases hso : segSize ≤ off + entrySize e
            · rw [if_pos hso] at hok
              injection hok with h
              subst h
              exact h2
            · rw [if_neg hso] at hok
              exact ih _ _ _ hok h2

/-- C4: a record streamed by Merge is skipped exactly when its flag is one
of the destructive opcodes the spec lists or its (ttl, timestamp) pair is
expired, so records with any other flag (list-set included) pass this
filter; and no skipped record is ever collected for the merge destination.
The expiry predicate is the spec-modelled IsExpired. -/
theorem isFilterEntry_spec :
    (∀ (now : Nat) (e : Entry),
        isFilterEntry now e = true
          ↔ (e.Meta.Flag ∈ specDestructiveFlags
              ∨ IsExpired e.Meta.TTL e.Meta.timestamp now = true))
    ∧ (∀ (idx : IdxState) (segSize now : Nat) (cells : List ReadCell) (pend : List Entry),
        mergeScan idx segSize now cells 0 [] = Except.ok pend →
        ∀ e ∈ pend, isFilterEntry now e = false) := by
  constructor
  · intro now e
    simp only [isFilterEntry, specDestructiveFlags, Bool.or_eq_true, beq_iff_eq,
      List.mem_cons, List.not_mem_nil, or_false]
    tauto
  · intro idx segSize now cells pend hok
    refine mergeScan_keeps_unfiltered idx segSize now cells 0 [] pend hok ?_
    intro e he
    cases he

/-- Witness for C4: a concrete scan collects exactly the live set entry and
that entry is not filtered. -/
theorem isFilterEntry_spec_witness :
    isFilterEntry 0 keepDemoEntry = false := by
  have hok : mergeScan keepDemoIdx 1000 0 [ReadCell.entry keepDemoEntry] 0 []
      = Except.ok [keepDemoEntry] := by rfl
  exact isFilterEntry_spec.2 keepDemoIdx 1000 0 [ReadCell.entry keepDemoEntry] [keepDemoEntry]
    hok keepDemoEntry (by simp)

/-- Helper: the early-break directory scan of checkEntryIdxMode computes the
same two flags as a full existential scan. -/
theorem checkScan_spec (files : List String) :
    ∀ (hasData hasBpt : Bool),
      checkScan files hasData hasBpt
        = (hasData || files.any (fun f => pathExt f == DataSuffix),
           hasBpt || files.any (fun f => f == bptDir)) := by
  induction files with
  | nil =>
      intro hasData hasBpt
      simp [checkScan]
  | cons f fs ih =>
      intro hasData hasBpt
      simp only [checkScan, List.any_cons]
      cases hd : (pathExt f == DataSuffix) with
      | false => cases hb : (f == bptDir) <;> simp [hd, hb, ih]
      | true =>
          cases hasBpt with
          | true => simp [hd]
          | false => cases hb : (f == bptDir) <;> simp [hd, hb, ih]

/-- C5: the open-time mode-compatibility check fails exactly when data files
exist and the bpt directory exists while the configured mode is not sparse,
or data files exist and the bpt directory is absent while the configured
mode is sparse; in every other directory state it succeeds. -/
theorem checkEntryIdxMode_spec (mode : EntryIdxMode) (files : List String) :
    (checkEntryIdxMode mode files).isSome = true
      ↔ ((files.any (fun f => pathExt f == DataSuffix) = true
            ∧ files.any (fun f => f == bptDir) = true
            ∧ mode ≠ EntryIdxMode.HintBPTSparseIdxMode)
        ∨ (files.any (fun f => pathExt f == DataSuffix) = true
            ∧ files.any (fun f => f == bptDir) = false
            ∧ mode = EntryIdxMode.HintBPTSparseIdxMode)) := by
  simp only [checkEntryIdxMode, checkScan_spec]
  cases hd : files.any (fun f => pathExt f == DataSuffix) <;>
    cases hb : files.any (fun f => f == bptDir) <;>
      cases mode <;> simp [hd, hb]

/-- C7: the managed facade rejects a nil callback with ErrFn before any
transaction begins; a callback error triggers a rollback and the call
returns the callback's error unless the rollback itself fails, in which
case the rollback error is returned; a commit failure likewise triggers a
rollback and returns the commit error unless the rollback fails. -/
theorem managed_facade_spec :
    (Update none = (some GoError.ErrFn, []) ∧ View none = (some GoError.ErrFn, []))
    ∧ (∀ (env : TxEnv) (e : GoError), env.beginErr = none → env.fnErr = some e →
        managed env
          = (some ((env.rollbackErr).getD e),
             [TxStep.begunTx, TxStep.fnCall, TxStep.rollback]))
    ∧ (∀ (env : TxEnv) (ce : GoError), env.beginErr = none → env.fnErr = none →
        env.commitErr = some ce →
        managed env
          = (some ((env.rollbackErr).getD ce),
             [TxStep.begunTx, TxStep.fnCall, TxStep.commit, TxStep.rollback])) := by
  refine ⟨⟨rfl, rfl⟩, ?_, ?_⟩
  · intro env e hb hf
    simp only [managed, hb, hf]
    cases hr : env.rollbackErr <;> simp [hr]
  · intro env ce hb hf hc
    simp only [managed, hb, hf, hc]
    cases hr : env.rollbackErr <;> simp [hr]

/-- Witness for C7 at a concrete failing callback: the callback's own error
comes back and rollback was invoked after begin and the call. -/
theorem managed_facade_spec_witness :
    managed fnFailEnv
      = (some (GoError.errMsg ("boom")), [TxStep.begunTx, TxStep.fnCall, TxStep.rollback]) :=
  managed_facade_spec.2.1 fnFailEnv (GoError.errMsg ("boom")) rfl rfl

/-- C8: the recovery read loop stops cleanly at io.EOF and at any other read
error whose offset has reached SegmentSize (torn tail), while a non-EOF read
error below SegmentSize is surfaced and fails the parse. -/
theorem parseScan_error_handling (mode : EntryIdxMode) (segSize : Nat) (fID : Int)
    (rest : List ReadCell) (off : Nat) (acc : ParseAcc) (msg : String) :
    parseScan mode segSize fID (ReadCell.eof :: rest) off acc = Except.ok acc
    ∧ (segSize ≤ off →
        parseScan mode segSize fID (ReadCell.errAt msg :: rest) off acc = Except.ok acc)
    ∧ (off < segSize →
        parseScan mode segSize fID (ReadCell.errAt msg :: rest) off acc
          = Except.error ("when build hintIndex readAt err: " ++ msg)) := by
  refine ⟨rfl, ?_, ?_⟩
  · intro hle
    simp only [parseScan]
    rw [if_pos hle]
  · intro hlt
    simp only [parseScan]
    rw [if_neg (Nat.not_le.mpr hlt)]

/-- Witness for C8 at concrete offsets: a read error at offset 5 with
SegmentSize 5 is absorbed, and the same error at offset 0 is surfaced. -/
theorem parseScan_error_handling_witness :
    parseScan EntryIdxMode.HintKeyValAndRAMIdxMode 5 0 [ReadCell.errAt ("torn")] 5 emptyParseAcc
      = Except.ok emptyParseAcc
    ∧ parseScan EntryIdxMode.HintKeyValAndRAMIdxMode 5 0 [ReadCell.errAt ("torn")] 0 emptyParseAcc
      = Except.error ("when build hintIndex readAt err: " ++ "torn") := by
  constructor
  · exact (parseScan_error_handling EntryIdxMode.HintKeyValAndRAMIdxMode 5 0 [] 5
      emptyParseAcc ("torn")).2.1 (le_refl 5)
  · exact (parseScan_error_handling EntryIdxMode.HintKeyValAndRAMIdxMode 5 0 [] 0
      emptyParseAcc ("torn")).2.2 (by decide)

end NutsDB
